import Mathlib

/-!
Shallow embedding of the agent-dashboard value-capture logic
(src/agent_dashboard.py) and proofs about it.

Numbers from the spreadsheet are modelled as exact rationals; a cell that
is missing or non-numeric after the coercion performed by
`pd.to_numeric(..., errors = coerce)` is modelled as `none`.  Summation of
a column with `.sum()` skips missing cells, which is the same as treating
them as `0`; `sumO` below mirrors this.  Python `round` performs
round-half-to-even, mirrored by `roundHalfEven` and `round2`.  Python
string `lower`/`strip` are mirrored at the character-list level by
`pyLower`/`pyStrip` (the repository data is ASCII).
-/

namespace AgentDashboard

/-- The six seasons handled by the dashboard: the season/column triples
hard-coded in `compute_vcp_for_agent` and `compute_agent_vcp_by_season`. -/
inductive Season where
  | s1819
  | s1920
  | s2021
  | s2122
  | s2223
  | s2324
deriving DecidableEq

/-- One row of the PIBA worksheet: player display name, agent name, the
per-season (COST, PC) cell pairs after numeric coercion (`none` models a
missing or non-numeric cell), and the six-year aggregate columns used by
`display_player_section`. -/
structure PlayerRow where
  combinedNames : String
  agentName : String
  cost : Season → Option ℚ
  pc : Season → Option ℚ
  totalCost : ℚ
  dollarsCaptured : ℚ

/-- One row of the `Just Agent Ranks` worksheet as used by
`leaderboard_page`: agent name, agency name, `Dollar Index` and `CT`. -/
structure RanksRow where
  agentName : String
  agencyName : String
  dollarIndex : ℚ
  ct : ℚ
deriving DecidableEq

/-- Sum of a coerced numeric column, skipping missing cells exactly as
pandas `.sum()` does (a missing cell contributes `0`; an all-missing
column sums to `0`). -/
def sumO (l : List (Option ℚ)) : ℚ :=
  (l.map (fun c => c.getD 0)).sum

/-- Round to the nearest integer, ties to even: the semantics of Python
`round(x)`. -/
def roundHalfEven (q : ℚ) : ℤ :=
  if q - (⌊q⌋ : ℚ) < 1/2 then ⌊q⌋
  else if (1 : ℚ)/2 < q - (⌊q⌋ : ℚ) then ⌊q⌋ + 1
  else if ⌊q⌋ % 2 = 0 then ⌊q⌋ else ⌊q⌋ + 1

/-- Round to two decimal places, ties to even: the semantics of Python
`round(x, 2)`. -/
def round2 (q : ℚ) : ℚ :=
  (roundHalfEven (q * 100) : ℚ) / 100

/-- `compute_vcp_for_agent` (src/agent_dashboard.py lines 283-304): for a
season, sum the coerced COST and PC columns of the rows already filtered
to one agent or agency; when the PC total is nonzero return the cost/PC
percentage rounded to two decimals, otherwise `None`.  (The
`except` branch of the source corresponds to a worksheet lacking the
season's columns entirely; rows in this model always carry all columns.) -/
def compute_vcp_for_agent (rows : List PlayerRow) (s : Season) : Option ℚ :=
  let total_cost := sumO (rows.map (fun p => p.cost s))
  let total_pc := sumO (rows.map (fun p => p.pc s))
  if total_pc ≠ 0 then some (round2 (total_cost / total_pc * 100)) else none

/-- ASCII lower-casing of one character, as Python `str.lower` does on the
ASCII names occurring in the data. -/
def lowerChar (c : Char) : Char :=
  if 65 ≤ c.toNat ∧ c.toNat ≤ 90 then Char.ofNat (c.toNat + 32) else c

/-- Whitespace test used by the model of Python `str.strip`. -/
def isSpaceChar (c : Char) : Bool :=
  c = ' ' || c = '\t' || c = '\n' || c = '\r'

/-- Model of Python `str.lower`. -/
def pyLower (s : String) : String :=
  ⟨s.data.map lowerChar⟩

/-- Model of Python `str.strip`: drop whitespace from both ends. -/
def pyStrip (s : String) : String :=
  ⟨((s.data.dropWhile isSpaceChar).reverse.dropWhile isSpaceChar).reverse⟩

/-- The correction table of `correct_player_name`
(src/agent_dashboard.py lines 199-208), verbatim, in source order. -/
def corrections : List (String × String) :=
  [("zotto del", "Michael Del Zotto"),
   ("riemsdyk van", "James Van Riemsdyk"),
   ("alexandre carrier a", "Alexandre Carrier"),
   ("lias andersson l", "Lias Andersson"),
   ("jesper boqvist j", "Jesper Boqvist"),
   ("sompel vande", "Mitch Vande Sompel"),
   ("Colle Dal", "Michael Dal Colle"),
   ("Giuseppe Di", "Phil Di Giuseppe")]

/-- `correct_player_name` (src/agent_dashboard.py lines 198-210): look the
lower-cased, stripped name up in the correction table, defaulting to the
input. -/
def correct_player_name (name : String) : String :=
  (corrections.lookup (pyStrip (pyLower name))).getD name

/-- The cost/delivery pair shown by `display_player_section`
(src/agent_dashboard.py lines 397-404): hard-coded 2300000/2300000 when
the corrected display name is exactly "Evgeny Svechnikov", otherwise the
record's `Total Cost` and `Dollars Captured Above/ Below Value` fields. -/
def display_cost_delivery (p : PlayerRow) : ℚ × ℚ :=
  if correct_player_name p.combinedNames = "Evgeny Svechnikov" then
    (2300000, 2300000)
  else
    (p.totalCost, p.dollarsCaptured)

/-!  Helper lemmas about `sumO`.  -/

theorem sumO_nil : sumO [] = 0 := rfl

theorem sumO_cons (c : Option ℚ) (l : List (Option ℚ)) :
    sumO (c :: l) = c.getD 0 + sumO l := by
  simp [sumO]

theorem sumO_append (l1 l2 : List (Option ℚ)) :
    sumO (l1 ++ l2) = sumO l1 + sumO l2 := by
  simp [sumO]

/-- Skipping missing cells is the same as summing only the numeric ones. -/
theorem sumO_eq_sum_filterMap (l : List (Option ℚ)) :
    sumO l = (l.filterMap id).sum := by
  induction l with
  | nil => rfl
  | cons c l ih => cases c <;> simp [sumO_cons, ih]

theorem sumO_scale_col (a : ℚ) (f : PlayerRow → Option ℚ)
    (rows : List PlayerRow) :
    sumO (rows.map (fun p => Option.map (fun x => a * x) (f p))) =
      a * sumO (rows.map f) := by
  induction rows with
  | nil => simp [sumO]
  | cons p rows ih => cases h : f p <;> simp [sumO_cons, h, ih, mul_add]

/-!  Claim C2.  -/

/-- Claim C2: whenever the summed on-ice value of a season is zero
(in particular when every cell is missing), `compute_vcp_for_agent`
returns `none` for that season.  The function is total with an `Option`
codomain, so no exception and no infinite or NaN value can arise. -/
theorem vcp_zero_total_value_is_none (rows : List PlayerRow) (s : Season)
    (h : sumO (rows.map (fun p => p.pc s)) = 0) :
    compute_vcp_for_agent rows s = none := by
  simp [compute_vcp_for_agent, h]

/-- A row whose every season cell is missing. -/
def allMissingRow : PlayerRow :=
  ⟨"Missing Man", "Agent X", fun _ => none, fun _ => none, 0, 0⟩

theorem vcp_zero_total_value_is_none_witness :
    compute_vcp_for_agent [allMissingRow] Season.s1819 = none :=
  vcp_zero_total_value_is_none [allMissingRow] Season.s1819
    (by simp [sumO, allMissingRow])

/-!  Claim C1.  -/

/-- A record whose season ratio is not expressible in two decimals. -/
def oneThirdRow : PlayerRow :=
  ⟨"P Third", "Agent Ex", fun _ => some 1, fun _ => some 3, 0, 0⟩

/-- Claim C1, counterexample: with one record of cost 1 and value 3 the
aggregator returns 33.33 (the two-decimal rounding of 100/3), not the
exact ratio 100 * 1 / 3 the claim states. -/
theorem vcp_not_exact_ratio :
    compute_vcp_for_agent [oneThirdRow] Season.s1819 = some (3333/100) ∧
    (3333/100 : ℚ) ≠ 100 * 1 / 3 := by
  constructor
  · norm_num [compute_vcp_for_agent, sumO, oneThirdRow, round2, roundHalfEven]
  · norm_num

/-- Claim C1 as amended: for a season with positive summed on-ice value,
`compute_vcp_for_agent` returns 100 * (sum of the season's numeric
compensation entries) / (sum of the season's numeric on-ice entries),
rounded to two decimal places. -/
theorem vcp_rounds_ratio_of_sums (rows : List PlayerRow) (s : Season)
    (h : 0 < sumO (rows.map (fun p => p.pc s))) :
    compute_vcp_for_agent rows s =
      some (round2 (100 * ((rows.map (fun p => p.cost s)).filterMap id).sum /
        ((rows.map (fun p => p.pc s)).filterMap id).sum)) := by
  have hc := sumO_eq_sum_filterMap (rows.map (fun p => p.cost s))
  have hp := sumO_eq_sum_filterMap (rows.map (fun p => p.pc s))
  have hne : sumO (rows.map (fun p => p.pc s)) ≠ 0 := ne_of_gt h
  simp only [compute_vcp_for_agent]
  rw [if_pos hne, ← hc, ← hp]
  congr 1
  rw [div_mul_eq_mul_div, mul_comm]

/-- The spec's worked example: (cost, value) = (1000000, 1200000). -/
def exampleRow1 : PlayerRow :=
  ⟨"P One", "Agent Ex", fun _ => some 1000000, fun _ => some 1200000, 0, 0⟩

/-- The spec's worked example: (cost, value) = (500000, 400000). -/
def exampleRow2 : PlayerRow :=
  ⟨"P Two", "Agent Ex", fun _ => some 500000, fun _ => some 400000, 0, 0⟩

/-- The spec's two-record example set. -/
def exampleRows : List PlayerRow := [exampleRow1, exampleRow2]

/-- Witness for the amended claim C1 at the spec's example: total cost
1500000, total value 1600000, result 375/4 = 93.75. -/
theorem vcp_rounds_ratio_of_sums_witness :
    0 < sumO (exampleRows.map (fun p => p.pc Season.s1819)) ∧
    compute_vcp_for_agent exampleRows Season.s1819 = some (375/4) := by
  constructor
  · norm_num [sumO, exampleRows, exampleRow1, exampleRow2]
  · rw [vcp_rounds_ratio_of_sums exampleRows Season.s1819
      (by norm_num [sumO, exampleRows, exampleRow1, exampleRow2])]
    have h1 : (exampleRows.map (fun p => p.cost Season.s1819)).filterMap id =
        [(1000000 : ℚ), 500000] := rfl
    have h2 : (exampleRows.map (fun p => p.pc Season.s1819)).filterMap id =
        [(1200000 : ℚ), 400000] := rfl
    rw [h1, h2]
    norm_num [round2, roundHalfEven]

/-!  Claim C3.  -/

/-- Multiply a record's compensation and on-ice value for one season by a
constant, leaving missing cells missing. -/
def scaleSeason (a : ℚ) (s : Season) (p : PlayerRow) : PlayerRow :=
  { p with
    cost := fun t => if t = s then (p.cost t).map (fun x => a * x) else p.cost t
    pc := fun t => if t = s then (p.pc t).map (fun x => a * x) else p.pc t }

/-- Claim C3: the capture percentage is scale-invariant.  For a record
set whose summed on-ice value for a season is positive, multiplying every
record's compensation and on-ice value for that season by the same
positive constant leaves `compute_vcp_for_agent` unchanged. -/
theorem vcp_scale_invariant (rows : List PlayerRow) (s : Season) (a : ℚ)
    (hpos : 0 < sumO (rows.map (fun p => p.pc s))) (ha : 0 < a) :
    compute_vcp_for_agent (rows.map (scaleSeason a s)) s =
      compute_vcp_for_agent rows s := by
  have hcost :
      sumO ((rows.map (scaleSeason a s)).map (fun p => p.cost s)) =
        a * sumO (rows.map (fun p => p.cost s)) := by
    rw [List.map_map]
    have hfun : ((fun p : PlayerRow => p.cost s) ∘ scaleSeason a s) =
        (fun p : PlayerRow => Option.map (fun x => a * x) (p.cost s)) := by
      funext p
      simp [scaleSeason, Function.comp]
    rw [hfun]
    exact sumO_scale_col a (fun p => p.cost s) rows
  have hpc :
      sumO ((rows.map (scaleSeason a s)).map (fun p => p.pc s)) =
        a * sumO (rows.map (fun p => p.pc s)) := by
    rw [List.map_map]
    have hfun : ((fun p : PlayerRow => p.pc s) ∘ scaleSeason a s) =
        (fun p : PlayerRow => Option.map (fun x => a * x) (p.pc s)) := by
      funext p
      simp [scaleSeason, Function.comp]
    rw [hfun]
    exact sumO_scale_col a (fun p => p.pc s) rows
  have hne : sumO (rows.map (fun p => p.pc s)) ≠ 0 := ne_of_gt hpos
  have hane : a ≠ 0 := ne_of_gt ha
  simp only [compute_vcp_for_agent, hcost, hpc]
  rw [if_pos (mul_ne_zero hane hne), if_pos hne,
    mul_div_mul_left _ _ hane]

theorem vcp_scale_invariant_witness :
    (0 < sumO (exampleRows.map (fun p => p.pc Season.s1819)) ∧ (0:ℚ) < 2) ∧
    compute_vcp_for_agent (exampleRows.map (scaleSeason 2 Season.s1819))
        Season.s1819 =
      compute_vcp_for_agent exampleRows Season.s1819 :=
  ⟨⟨by norm_num [sumO, exampleRows, exampleRow1, exampleRow2], by norm_num⟩,
   vcp_scale_invariant exampleRows Season.s1819 2
     (by norm_num [sumO, exampleRows, exampleRow1, exampleRow2]) (by norm_num)⟩

/-!  Claim C4.  -/

/-- Claim C4: missing or non-numeric entries are coerced to zero when
summing.  The totals used by the aggregator equal the sums over only the
numeric entries, and inserting a record whose cells for the season are
all missing anywhere in the record set leaves the computed capture
percentage unchanged. -/
theorem vcp_missing_entries_inert (rows1 rows2 : List PlayerRow)
    (r : PlayerRow) (s : Season)
    (hc : r.cost s = none) (hp : r.pc s = none) :
    compute_vcp_for_agent (rows1 ++ r :: rows2) s =
      compute_vcp_for_agent (rows1 ++ rows2) s ∧
    sumO ((rows1 ++ r :: rows2).map (fun p => p.cost s)) =
      (((rows1 ++ r :: rows2).map (fun p => p.cost s)).filterMap id).sum ∧
    sumO ((rows1 ++ r :: rows2).map (fun p => p.pc s)) =
      (((rows1 ++ r :: rows2).map (fun p => p.pc s)).filterMap id).sum := by
  refine ⟨?_, sumO_eq_sum_filterMap _, sumO_eq_sum_filterMap _⟩
  simp [compute_vcp_for_agent, sumO_append, sumO_cons, hc, hp]

theorem vcp_missing_entries_inert_witness :
    (allMissingRow.cost Season.s1819 = none ∧
      allMissingRow.pc Season.s1819 = none) ∧
    compute_vcp_for_agent [exampleRow1, allMissingRow, exampleRow2]
        Season.s1819 =
      compute_vcp_for_agent [exampleRow1, exampleRow2] Season.s1819 :=
  ⟨⟨rfl, rfl⟩,
   (vcp_missing_entries_inert [exampleRow1] [exampleRow2] allMissingRow
     Season.s1819 rfl rfl).1⟩

/-!  Grouping by agent name (`compute_agent_vcp_by_season`).  -/

/-- The rows of one agent's group: `df.groupby` on the agent-name column
collects the rows whose `Agent Name` equals the key. -/
def groupRows (piba : List PlayerRow) (n : String) : List PlayerRow :=
  piba.filter (fun p => decide (p.agentName = n))

/-- Lexicographic order on character lists, mirroring the ordering pandas
uses for string group keys. -/
def charListLE (a b : List Char) : Bool :=
  match a, b with
  | [], _ => true
  | _ :: _, [] => false
  | c :: a2, d :: b2 => if c = d then charListLE a2 b2 else decide (c < d)

/-- String order used to sort group keys. -/
def strR : String → String → Prop :=
  fun a b => charListLE a.data b.data = true

instance : DecidableRel strR :=
  fun _ _ => instDecidableEqBool _ _

/-- The group keys of `df.groupby` on the agent-name column: the distinct
agent names, sorted (pandas groupby sorts keys by default). -/
def agentKeys (piba : List PlayerRow) : List String :=
  List.insertionSort strR ((piba.map (fun p => p.agentName)).dedup)

/-- `compute_agent_vcp_by_season` (src/agent_dashboard.py lines 306-332)
for one season: group the coerced PIBA rows by agent name, keep only the
groups with `client_count > 2`, and pair each kept agent with
`round((total_cost / total_pc) * 100)` when the PC total is nonzero and
`None` otherwise.  (The source also tests `pd.notnull(total_pc)`, which
always holds: a pandas sum of an all-missing column is `0.0`, not null.) -/
def compute_agent_vcp_by_season (piba : List PlayerRow) (s : Season) :
    List (String × Option ℤ) :=
  ((agentKeys piba).filter (fun n => decide (2 < (groupRows piba n).length))).map
    (fun n =>
      let total_cost := sumO ((groupRows piba n).map (fun p => p.cost s))
      let total_pc := sumO ((groupRows piba n).map (fun p => p.pc s))
      (n, if total_pc ≠ 0 then some (roundHalfEven (total_cost / total_pc * 100))
          else none))

/-!  The leaderboard page (`leaderboard_page`).  -/

/-- The manual exclusion list of `leaderboard_page`
(src/agent_dashboard.py line 662), verbatim. -/
def excluded_agents : List String :=
  ["Patrik Aronsson", "Chris McAlpine", "David Kaye", "Thomas Lynn",
   "Patrick Sullivan"]

/-- `valid_agents` (line 663): the stripped agent names of the `Agents`
worksheet minus the exclusion list. -/
def validAgents (agentsData : List String) : List String :=
  (agentsData.map pyStrip).filter (fun n => decide (n ∉ excluded_agents))

/-- Line 664: keep the rank rows whose stripped agent name is valid. -/
def filterRanks (agentsData : List String) (ranks : List RanksRow) :
    List RanksRow :=
  ranks.filter (fun r => decide (pyStrip r.agentName ∈ validAgents agentsData))

/-- Line 665: keep the PIBA rows whose stripped agent name is valid. -/
def filterPiba (agentsData : List String) (piba : List PlayerRow) :
    List PlayerRow :=
  piba.filter (fun p => decide (pyStrip p.agentName ∈ validAgents agentsData))

/-- Descending order on `Dollar Index`, the leaderboard sort key. -/
def byDollarIndexDesc : RanksRow → RanksRow → Prop :=
  fun a b => b.dollarIndex ≤ a.dollarIndex

instance : DecidableRel byDollarIndexDesc :=
  fun _ _ => inferInstanceAs (Decidable (_ ≤ _))

instance : IsTotal RanksRow byDollarIndexDesc :=
  ⟨fun a b => le_total b.dollarIndex a.dollarIndex⟩

instance : IsTrans RanksRow byDollarIndexDesc :=
  ⟨fun _ _ _ hab hbc => le_trans hbc hab⟩

/-- `overall_table` (lines 670-673): sort the filtered rank rows by
`Dollar Index` descending, optionally keep only rows with `CT >= 10`,
then take the first 90. -/
def leaderboard_ranks (agentsData : List String) (ranks : List RanksRow)
    (filterOpt : Bool) : List RanksRow :=
  let sorted := List.insertionSort byDollarIndexDesc (filterRanks agentsData ranks)
  let t := if filterOpt then sorted.filter (fun r => decide ((10:ℚ) ≤ r.ct))
           else sorted
  t.take 90

/-- Descending order on the VCP column with missing values last, as
`sort_values(by = VCP, ascending = False)` places NaN last. -/
def vcpDescR : (String × Option ℤ) → (String × Option ℤ) → Prop :=
  fun a b =>
    (match a.2, b.2 with
     | some x, some y => decide (y ≤ x)
     | some _, none => true
     | none, some _ => false
     | none, none => true) = true

instance : DecidableRel vcpDescR :=
  fun _ _ => instDecidableEqBool _ _

/-- Ascending order on the VCP column with missing values last. -/
def vcpAscR : (String × Option ℤ) → (String × Option ℤ) → Prop :=
  fun a b =>
    (match a.2, b.2 with
     | some x, some y => decide (x ≤ y)
     | some _, none => true
     | none, some _ => false
     | none, none => true) = true

instance : DecidableRel vcpAscR :=
  fun _ _ => instDecidableEqBool _ _

/-- Line 706: the five biggest winners of a season. -/
def seasonWinners (piba : List PlayerRow) (s : Season) :
    List (String × Option ℤ) :=
  (List.insertionSort vcpDescR (compute_agent_vcp_by_season piba s)).take 5

/-- Line 707: the five biggest losers of a season. -/
def seasonLosers (piba : List PlayerRow) (s : Season) :
    List (String × Option ℤ) :=
  (List.insertionSort vcpAscR (compute_agent_vcp_by_season piba s)).take 5

/-- The leaderboard output is a sublist of the sorted filtered table. -/
theorem leaderboard_ranks_sublist (agentsData : List String)
    (ranks : List RanksRow) (filterOpt : Bool) :
    (leaderboard_ranks agentsData ranks filterOpt).Sublist
      (List.insertionSort byDollarIndexDesc (filterRanks agentsData ranks)) := by
  rw [leaderboard_ranks]
  cases filterOpt with
  | true => simpa using (List.take_sublist 90 _).trans (List.filter_sublist _)
  | false => simpa using List.take_sublist 90 _

/-!  Claim C5.  -/

theorem mem_validAgents_not_excluded {agentsData : List String} {n : String}
    (h : n ∈ validAgents agentsData) : n ∉ excluded_agents := by
  rw [validAgents, List.mem_filter] at h
  simpa using h.2

/-- Every entry of `compute_agent_vcp_by_season` is keyed by the agent
name of some input row. -/
theorem vcp_by_season_names (piba : List PlayerRow) (s : Season)
    (e : String × Option ℤ) (h : e ∈ compute_agent_vcp_by_season piba s) :
    ∃ p ∈ piba, p.agentName = e.1 := by
  rw [compute_agent_vcp_by_season, List.mem_map] at h
  obtain ⟨n, hn, he⟩ := h
  rw [List.mem_filter] at hn
  have hk : n ∈ agentKeys piba := hn.1
  rw [agentKeys, (List.perm_insertionSort strR _).mem_iff, List.mem_dedup,
    List.mem_map] at hk
  obtain ⟨p, hp, hpn⟩ := hk
  exact ⟨p, hp, by rw [hpn, ← he]⟩

/-- Claim C5: agents on the exclusion list never appear in the
leaderboard page output — neither in the overall Dollar Index ranking
nor in any season's winners or losers list — whatever their metrics. -/
theorem excluded_agents_never_shown (agentsData : List String)
    (ranks : List RanksRow) (piba : List PlayerRow) (filterOpt : Bool)
    (s : Season) :
    (∀ r ∈ leaderboard_ranks agentsData ranks filterOpt,
      pyStrip r.agentName ∉ excluded_agents) ∧
    (∀ e ∈ seasonWinners (filterPiba agentsData piba) s,
      pyStrip e.1 ∉ excluded_agents) ∧
    (∀ e ∈ seasonLosers (filterPiba agentsData piba) s,
      pyStrip e.1 ∉ excluded_agents) := by
  have hpiba : ∀ e ∈ compute_agent_vcp_by_season (filterPiba agentsData piba) s,
      pyStrip e.1 ∉ excluded_agents := by
    intro e he
    obtain ⟨p, hp, hpn⟩ := vcp_by_season_names _ _ _ he
    rw [filterPiba, List.mem_filter] at hp
    have hv : pyStrip p.agentName ∈ validAgents agentsData := by
      simpa using hp.2
    rw [hpn] at hv
    exact mem_validAgents_not_excluded hv
  refine ⟨?_, ?_, ?_⟩
  · intro r hr
    have hr3 : r ∈ filterRanks agentsData ranks :=
      (List.perm_insertionSort byDollarIndexDesc _).subset
        ((leaderboard_ranks_sublist agentsData ranks filterOpt).mem hr)
    rw [filterRanks, List.mem_filter] at hr3
    exact mem_validAgents_not_excluded (by simpa using hr3.2)
  · intro e he
    refine hpiba e ?_
    exact (List.perm_insertionSort vcpDescR _).subset
      ((List.take_sublist 5 _).mem he)
  · intro e he
    refine hpiba e ?_
    exact (List.perm_insertionSort vcpAscR _).subset
      ((List.take_sublist 5 _).mem he)

/-- A rank row for the C5 witness. -/
def sampleRank : RanksRow := ⟨"Agent Won", "Agency W", 1, 12⟩

theorem excluded_agents_never_shown_witness :
    sampleRank ∈ leaderboard_ranks ["Agent Won"] [sampleRank] false ∧
    pyStrip sampleRank.agentName ∉ excluded_agents :=
  ⟨by decide,
   (excluded_agents_never_shown ["Agent Won"] [sampleRank] [] false
     Season.s1819).1 sampleRank (by decide)⟩

/-!  Claim C6.  -/

/-- Claim C6: the leaderboard output is monotonic in the sort key — for
every pair of adjacent entries of the produced ranking, the earlier
entry's Dollar Index is at least the later entry's. -/
theorem leaderboard_sorted_descending (agentsData : List String)
    (ranks : List RanksRow) (filterOpt : Bool) :
    List.Chain' (fun a b => b.dollarIndex ≤ a.dollarIndex)
      (leaderboard_ranks agentsData ranks filterOpt) := by
  have hs : (List.insertionSort byDollarIndexDesc
      (filterRanks agentsData ranks)).Pairwise byDollarIndexDesc :=
    List.sorted_insertionSort byDollarIndexDesc _
  exact ((hs.sublist (leaderboard_ranks_sublist agentsData ranks
    filterOpt)).chain')

/-!  Claim C8.  -/

/-- Claim C8: `compute_agent_vcp_by_season` produces an entry for an
agent exactly when the agent has strictly more than 2 player records,
and a produced entry's VCP is `None` exactly when the agent's summed
on-ice value for the season is zero (as it is when every cell is
missing). -/
theorem vcp_by_season_threshold (piba : List PlayerRow) (s : Season)
    (n : String) :
    ((∃ v, (n, v) ∈ compute_agent_vcp_by_season piba s) ↔
      2 < (groupRows piba n).length) ∧
    (∀ v, (n, v) ∈ compute_agent_vcp_by_season piba s →
      (v = none ↔ sumO ((groupRows piba n).map (fun p => p.pc s)) = 0)) := by
  have hmem : ∀ v, (n, v) ∈ compute_agent_vcp_by_season piba s ↔
      (n ∈ agentKeys piba ∧ 2 < (groupRows piba n).length) ∧
      v = (if sumO ((groupRows piba n).map (fun p => p.pc s)) ≠ 0 then
        some (roundHalfEven (sumO ((groupRows piba n).map (fun p => p.cost s)) /
          sumO ((groupRows piba n).map (fun p => p.pc s)) * 100))
        else none) := by
    intro v
    rw [compute_agent_vcp_by_season, List.mem_map]
    constructor
    · rintro ⟨k, hk, he⟩
      rw [List.mem_filter] at hk
      have hkn : k = n := congrArg Prod.fst he
      subst hkn
      refine ⟨⟨hk.1, by simpa using hk.2⟩, ?_⟩
      have := congrArg Prod.snd he
      simpa using this.symm
    · rintro ⟨⟨hk, hcnt⟩, hv⟩
      refine ⟨n, List.mem_filter.mpr ⟨hk, by simpa using hcnt⟩, ?_⟩
      simp [hv]
  constructor
  · constructor
    · rintro ⟨v, hv⟩
      exact ((hmem v).mp hv).1.2
    · intro hcnt
      have hne : groupRows piba n ≠ [] := by
        intro h0
        rw [h0] at hcnt
        simp at hcnt
      obtain ⟨p, hp⟩ := List.exists_mem_of_ne_nil _ hne
      rw [groupRows, List.mem_filter] at hp
      have hp2 : p ∈ piba ∧ p.agentName = n := ⟨hp.1, by simpa using hp.2⟩
      have hkey : n ∈ agentKeys piba := by
        rw [agentKeys, (List.perm_insertionSort strR _).mem_iff,
          List.mem_dedup, List.mem_map]
        exact ⟨p, hp2.1, hp2.2⟩
      exact ⟨_, (hmem _).mpr ⟨⟨hkey, hcnt⟩, rfl⟩⟩
  · intro v hv
    have := ((hmem v).mp hv).2
    by_cases hz : sumO ((groupRows piba n).map (fun p => p.pc s)) = 0
    · simp [hz] at this
      simp [hz, this]
    · simp [hz] at this
      simp [hz, this]

/-- Three records for one agent, for the C8 witness. -/
def samplePiba : List PlayerRow :=
  [⟨"P A", "Agent Trio", fun _ => some 100, fun _ => some 100, 0, 0⟩,
   ⟨"P B", "Agent Trio", fun _ => some 100, fun _ => some 100, 0, 0⟩,
   ⟨"P C", "Agent Trio", fun _ => some 100, fun _ => some 100, 0, 0⟩]

theorem vcp_by_season_threshold_witness :
    2 < (groupRows samplePiba "Agent Trio").length ∧
    ∃ v, ("Agent Trio", v) ∈ compute_agent_vcp_by_season samplePiba
        Season.s1819 ∧
      (v = none ↔
        sumO ((groupRows samplePiba "Agent Trio").map
          (fun p => p.pc Season.s1819)) = 0) := by
  refine ⟨by decide, ?_⟩
  obtain ⟨v, hv⟩ :=
    (vcp_by_season_threshold samplePiba Season.s1819 "Agent Trio").1.mpr
      (by decide)
  exact ⟨v, hv,
    (vcp_by_season_threshold samplePiba Season.s1819 "Agent Trio").2 v hv⟩

/-!  Claim C9.  -/

/-- Claim C9, failing input: the correction-table entry
("Colle Dal", "Michael Dal Colle") is listed, yet `correct_player_name`
leaves the input "Colle Dal" unchanged — the lookup key is lower-cased
while this table key contains capitals, so the entry can never match,
whatever the input's case or surrounding whitespace. -/
theorem correct_player_name_dead_entry :
    ("Colle Dal", "Michael Dal Colle") ∈ corrections ∧
    correct_player_name "Colle Dal" = "Colle Dal" ∧
    correct_player_name "colle dal" = "colle dal" ∧
    "Colle Dal" ≠ "Michael Dal Colle" := by
  exact ⟨by decide, by decide, by decide, by decide⟩

/-!  Claim C10.  -/

/-- Claim C10: the player card hard-codes the six-year cost and delivery
to 2300000 exactly for the record whose corrected display name is
"Evgeny Svechnikov"; every other record's displayed values come
unchanged from its `Total Cost` and
`Dollars Captured Above/ Below Value` fields. -/
theorem svechnikov_override (p : PlayerRow) :
    (correct_player_name p.combinedNames = "Evgeny Svechnikov" →
      display_cost_delivery p = (2300000, 2300000)) ∧
    (correct_player_name p.combinedNames ≠ "Evgeny Svechnikov" →
      display_cost_delivery p = (p.totalCost, p.dollarsCaptured)) := by
  constructor
  · intro h
    simp [display_cost_delivery, h]
  · intro h
    simp [display_cost_delivery, h]

/-- The special-cased player record. -/
def svechRow : PlayerRow :=
  ⟨"Evgeny Svechnikov", "Agent S", fun _ => none, fun _ => none, 1000, 500⟩

/-- An ordinary player record. -/
def ordinaryRow : PlayerRow :=
  ⟨"John Doe", "Agent S", fun _ => none, fun _ => none, 700, 300⟩

theorem svechnikov_override_witness :
    display_cost_delivery svechRow = (2300000, 2300000) ∧
    display_cost_delivery ordinaryRow = (700, 300) :=
  ⟨(svechnikov_override svechRow).1 (by decide),
   (svechnikov_override ordinaryRow).2 (by decide)⟩

end AgentDashboard
